import Mathlib

/- Verification development for the branch-cleanup dashboard
(src/dashboard.py, src/app.py, src/app1.py): the branch classifier, the
paginated fetch/merge loop, protected-branch filtering, the deletion queue
and executor, post-deletion snapshot filtering, and no-reply e-mail handle
extraction. -/

/-- Branch lifecycle category (src/dashboard.py lines 30 and 366). -/
inductive Cat where
  | stale
  | open_pr
  | closed_pr
  | no_pr
deriving DecidableEq

/-- One row of the `branch_details` store (src/dashboard.py lines 368-375).
The last-commit timestamp is kept as whole seconds since the epoch; the
"%Y-%m-%d" display formatting of the row is not modelled. -/
structure BranchRecord where
  name : String
  lastCommit : Int
  category : Cat
  updatedBy : String
  authorName : String
  authorEmail : String
deriving DecidableEq

/-- Python `(now - commit_date).days` for timestamps held in seconds:
floor division of the difference by 86400 (src/dashboard.py line 366,
src/app.py line 107, src/app1.py line 69). -/
def daysBetween (now commitDate : Int) : Int :=
  Int.fdiv (now - commitDate) 86400

/-- PR state string to category, from the dict comprehension on
src/dashboard.py line 267: the open state maps to open_pr, any other state
to closed_pr. -/
def stateToCat (st : String) : Cat :=
  if st = "open" then Cat.open_pr else Cat.closed_pr

/-- Last-wins lookup of a head ref in the fetched PR list, modelling the
Python dict comprehension in which a later PR with the same head ref
overwrites an earlier one (src/dashboard.py line 267). -/
def prLookup (prs : List (String × String)) (name : String) : Option String :=
  (prs.reverse.find? (fun p => p.1 == name)).map (fun p => p.2)

/-- The PRMap built once per fetch session (src/dashboard.py line 267,
src/app.py line 91, src/app1.py line 44). -/
def prMapOf (prs : List (String × String)) : String → Option Cat :=
  fun name => (prLookup prs name).map stateToCat

/-- The classifier (src/dashboard.py line 366, src/app.py lines 106-112,
src/app1.py line 69): stale when the whole-day difference exceeds the
threshold, decided before the PR map is consulted; otherwise the PR map
entry for the branch name, defaulting to no_pr. -/
def classify (prMap : String → Option Cat) (now commitDate : Int)
    (staleDays : Nat) (name : String) : Cat :=
  if daysBetween now commitDate > (staleDays : Int) then Cat.stale
  else (prMap name).getD Cat.no_pr

/-- The four per-category lists of (author name, author e-mail, branch name)
triples, `branch_categories` (src/dashboard.py line 30). -/
structure CatGroups where
  stale : List (String × String × String)
  open_pr : List (String × String × String)
  closed_pr : List (String × String × String)
  no_pr : List (String × String × String)
deriving DecidableEq

/-- `branch_categories[category].append(...)` (src/dashboard.py line 367). -/
def addToGroup (g : CatGroups) (c : Cat) (t : String × String × String) :
    CatGroups :=
  match c with
  | Cat.stale => { g with stale := g.stale ++ [t] }
  | Cat.open_pr => { g with open_pr := g.open_pr ++ [t] }
  | Cat.closed_pr => { g with closed_pr := g.closed_pr ++ [t] }
  | Cat.no_pr => { g with no_pr := g.no_pr ++ [t] }

def emptyGroups : CatGroups := ⟨[], [], [], []⟩

/-- Character-level lower casing of a branch name, Python `str.lower` on the
ASCII names involved. -/
def lowerStr (s : String) : String :=
  String.mk (s.data.map Char.toLower)

/-- The fixed protected list (src/dashboard.py lines 609, 736 and 880). -/
def protected_branches : List String :=
  ["main", "master", "develop", "development"]

/-- Python `branch["Branch"].lower() in protected_branches`. -/
def isProtected (name : String) : Bool :=
  protected_branches.contains (lowerStr name)

/-- The `active_branches` filter (src/dashboard.py lines 583, 602 and 877):
drops every record whose name is in the deleted-branches set. -/
def active_branches (details : List BranchRecord) (deleted : List String) :
    List BranchRecord :=
  details.filter (fun b => !(deleted.contains b.name))

/-- One per-category deletion candidate list, the `deletable_*` values
(src/dashboard.py lines 602-617): active records of that category with
protected names removed. -/
def deletableOf (c : Cat) (details : List BranchRecord)
    (deleted : List String) : List BranchRecord :=
  ((active_branches details deleted).filter (fun b => b.category == c)).filter
    (fun b => !(isProtected b.name))

/-- The four category checkboxes driving the delete handler
(src/dashboard.py lines 738-765). -/
structure Selection where
  delStale : Bool
  delOpenPr : Bool
  delClosedPr : Bool
  delNoPr : Bool

/-- Assembly of `branches_to_queue` in the delete handler (src/dashboard.py
lines 734-765): stale, closed-PR and no-PR selections are filtered against
the protected list again; an open-PR selection queues nothing (lines
747-749). The open-PR candidate list argument is therefore unused. -/
def branchesToQueue (sel : Selection)
    (dStale dOpen dClosed dNoPr : List BranchRecord) : List BranchRecord :=
  (if sel.delStale then dStale.filter (fun b => !(isProtected b.name)) else [])
    ++ (if sel.delClosedPr then dClosed.filter (fun b => !(isProtected b.name)) else [])
    ++ (if sel.delNoPr then dNoPr.filter (fun b => !(isProtected b.name)) else [])

/-- Queue admission (src/dashboard.py lines 774-779): a branch is added to
`branches_to_delete` only when its lowered name is unprotected and its
category is not open_pr. -/
def queuedRecords (sel : Selection)
    (dStale dOpen dClosed dNoPr : List BranchRecord) : List BranchRecord :=
  (branchesToQueue sel dStale dOpen dClosed dNoPr).filter
    (fun b => !(isProtected b.name) && !(b.category == Cat.open_pr))

/-- The names actually added to the deletion queue (src/dashboard.py
line 776). -/
def queueAdds (sel : Selection)
    (dStale dOpen dClosed dNoPr : List BranchRecord) : List String :=
  (queuedRecords sel dStale dOpen dClosed dNoPr).map (fun b => b.name)

/-- Outcome of evaluating the per-branch delete attempt inside the `try` of
`delete_branches` (src/dashboard.py lines 89-109): a status code of the
response object, or an exception while producing or inspecting it. -/
inductive RespOutcome where
  | status (code : Nat)
  | raised
deriving DecidableEq

/-- Running state of `delete_branches` (src/dashboard.py lines 84-109): the
two counters plus the shared `branch_categories`, `branch_details` and
`st.session_state.deleted_branches`. -/
structure DelState where
  deleted : Nat
  failed : Nat
  groups : CatGroups
  details : List BranchRecord
  deletedBranches : List String
deriving DecidableEq

/-- Removal of a branch name from every category list (src/dashboard.py
lines 98-99). -/
def removeFromGroups (g : CatGroups) (name : String) : CatGroups :=
  { stale := g.stale.filter (fun t => !(t.2.2 == name)),
    open_pr := g.open_pr.filter (fun t => !(t.2.2 == name)),
    closed_pr := g.closed_pr.filter (fun t => !(t.2.2 == name)),
    no_pr := g.no_pr.filter (fun t => !(t.2.2 == name)) }

/-- One iteration of the deletion loop (src/dashboard.py lines 87-109):
status 204 confirms deletion — record the name in deleted_branches, drop it
from the category lists and from branch_details; any other status, or an
exception, increments the failure counter and leaves the stores alone. -/
def deleteStep (resp : String → RespOutcome) (st : DelState) (name : String) :
    DelState :=
  match resp name with
  | RespOutcome.status c =>
      if c = 204 then
        { st with
            deleted := st.deleted + 1,
            deletedBranches := st.deletedBranches ++ [name],
            groups := removeFromGroups st.groups name,
            details := st.details.filter (fun b => !(b.name == name)) }
      else { st with failed := st.failed + 1 }
  | RespOutcome.raised => { st with failed := st.failed + 1 }

def delete_branches_loop (resp : String → RespOutcome) (names : List String)
    (st : DelState) : DelState :=
  names.foldl (deleteStep resp) st

/-- `delete_branches` as written (src/dashboard.py lines 74-123): line 90
binds `response` to the empty string in place of the HTTP delete call, so
`response.status_code` raises AttributeError for every branch and the
`except` arm counts it as failed; the 204 arm is dead code. The `resp`
argument records what the commented-out HTTP call would have returned; the
function as written never consults it. -/
def delete_branches (resp : String → RespOutcome) (names : List String)
    (groups : CatGroups) (details : List BranchRecord)
    (deletedBranches : List String) : DelState :=
  delete_branches_loop (fun _ => RespOutcome.raised) names
    ⟨0, 0, groups, details, deletedBranches⟩

/-- Modelled from the spec: section 4.6's deletion executor, which the
checked-in code disables — `delete_branches` with the per-branch HTTP
delete of the commented-out call on src/dashboard.py line 90 actually
issued and its status inspected. -/
def delete_branches_intended (resp : String → RespOutcome)
    (names : List String) (groups : CatGroups) (details : List BranchRecord)
    (deletedBranches : List String) : DelState :=
  delete_branches_loop resp names ⟨0, 0, groups, details, deletedBranches⟩

/-- One entry of a branches page: its name and the commit URL attached to it
(src/dashboard.py lines 310-312). -/
structure BranchEntry where
  name : String
  commitUrl : String
deriving DecidableEq

/-- The fields of the commit JSON that the fetch loop reads (src/dashboard.py
lines 315-356). `date` is the parsed commit author date in seconds; none
models a missing or unparseable date, which raises and skips the branch. -/
structure CommitData where
  date : Option Int
  authorLogin : Option String
  committerLogin : Option String
  commitAuthorName : Option String
  commitAuthorEmail : Option String
deriving DecidableEq

/-- Outcome of the pull-request index request (src/dashboard.py lines
262-282): the PR list on success, a 403, another non-success status, or a
raised request. -/
inductive PrOutcome where
  | ok (prs : List (String × String))
  | status403
  | statusOther (code : Nat)
  | raised
deriving DecidableEq

/-- Outcome of one branches-page request (src/dashboard.py lines 289-305). -/
inductive PageOutcome where
  | ok (entries : List BranchEntry)
  | dict
  | status403
  | statusOther (code : Nat)
  | raised
deriving DecidableEq

/-- Outcome of the events lookup for one branch (src/dashboard.py lines
320-337): the scan of the events list for a matching CreateEvent is
abstracted to its result. -/
inductive EventsOutcome where
  | found (login : String)
  | noMatch
  | non200
  | raised
deriving DecidableEq

/-- Stubbed environment of one background fetch session: the PR index
response, the branches page responses by page number, the commit lookup
keyed by commit URL (none models a raised request), the events outcome
keyed by branch name, and the cooperative cancellation flag sampled at the
top of each pagination iteration. -/
structure FetchEnv where
  pr : PrOutcome
  pageAt : Nat → PageOutcome
  commitAt : String → Option CommitData
  eventsAt : String → EventsOutcome
  flagAt : Nat → Bool

/-- Python truthiness of an optional string field: an absent or empty string
is falsy. -/
def nonEmptyOpt (o : Option String) : Option String :=
  match o with
  | some s => if s = "" then none else some s
  | none => none

/-- Fallback author resolution when no matching create event was found
(src/dashboard.py lines 340-347). -/
def fallbackAuthor (cd : CommitData) : String × String :=
  let an :=
    match nonEmptyOpt cd.authorLogin with
    | some l => l
    | none =>
      match nonEmptyOpt cd.committerLogin with
      | some l => l
      | none => cd.commitAuthorName.getD "Unknown"
  (an, cd.commitAuthorEmail.getD "Unknown")

/-- Author resolution when the events request itself raised
(src/dashboard.py lines 349-356): the committer login is not consulted on
this path. -/
def exnFallbackAuthor (cd : CommitData) : String × String :=
  let an :=
    match nonEmptyOpt cd.authorLogin with
    | some l => l
    | none => cd.commitAuthorName.getD "Unknown"
  (an, cd.commitAuthorEmail.getD "Unknown")

/-- Author resolution for one branch (src/dashboard.py lines 320-356). -/
def resolveAuthor (ev : EventsOutcome) (cd : CommitData) : String × String :=
  match ev with
  | EventsOutcome.raised => exnFallbackAuthor cd
  | EventsOutcome.non200 => fallbackAuthor cd
  | EventsOutcome.noMatch => fallbackAuthor cd
  | EventsOutcome.found login =>
      if login = "" then fallbackAuthor cd
      else (login, cd.commitAuthorEmail.getD "Unknown")

/-- Processing of one branch entry inside a fetched page (src/dashboard.py
lines 310-375): none models the `continue` taken when the commit lookup or
its date field fails (lines 362-364). -/
def processEntry (env : FetchEnv) (prMap : String → Option Cat) (now : Int)
    (staleDays : Nat) (e : BranchEntry) : Option BranchRecord :=
  match env.commitAt e.commitUrl with
  | none => none
  | some cd =>
    match cd.date with
    | none => none
    | some d =>
      let a := resolveAuthor (env.eventsAt e.name) cd
      some
        { name := e.name, lastCommit := d,
          category := classify prMap now d staleDays e.name,
          updatedBy := if a.1 = "" then "Unknown" else a.1,
          authorName := a.1, authorEmail := a.2 }

/-- True when the commit lookup for the entry yields a usable date. -/
def commitResolved (env : FetchEnv) (e : BranchEntry) : Bool :=
  match env.commitAt e.commitUrl with
  | none => false
  | some cd => cd.date.isSome

/-- The aggregate store: `branch_details` plus `branch_categories`
(src/dashboard.py lines 45-46 and 367-375). -/
structure AggState where
  details : List BranchRecord
  groups : CatGroups
deriving DecidableEq

def emptyAgg : AggState := ⟨[], emptyGroups⟩

/-- The two per-branch appends of the merge step (src/dashboard.py lines
367-375). -/
def appendRecord (s : AggState) (r : BranchRecord) : AggState :=
  { details := s.details ++ [r],
    groups := addToGroup s.groups r.category (r.authorName, r.authorEmail, r.name) }

/-- One page of the merge step (src/dashboard.py lines 309-375): every entry
whose commit lookup succeeds is appended; a failing entry is skipped and the
rest of the page is still processed. -/
def processPage (env : FetchEnv) (prMap : String → Option Cat) (now : Int)
    (staleDays : Nat) : List BranchEntry → AggState → AggState
  | [], s => s
  | e :: rest, s =>
    match processEntry env prMap now staleDays e with
    | none => processPage env prMap now staleDays rest s
    | some r => processPage env prMap now staleDays rest (appendRecord s r)

/-- Why the pagination loop, or the whole session, ended. -/
inductive EndReason where
  | prFailed
  | flagCleared
  | pageStatus403
  | pageStatusOther
  | pageRaised
  | pageDict
  | pageEmpty
  | fuelOut
deriving DecidableEq

structure SessionResult where
  state : AggState
  pagesRequested : List Nat
  reason : EndReason
deriving DecidableEq

/-- The pagination loop of `fetch_branches_continuously` (src/dashboard.py
lines 284-378): the cancellation flag is sampled at the top of each
iteration; a 403, another non-success status or a raised request breaks; an
empty or non-list JSON body ends pagination cleanly; otherwise the page is
merged and the page counter advances. `fuel` bounds the number of
iterations so the function is total; exhausting it is reported as fuelOut. -/
def fetchLoop (env : FetchEnv) (prMap : String → Option Cat) (now : Int)
    (staleDays : Nat) : Nat → Nat → AggState → List Nat → SessionResult
  | 0, _, s, reqs => ⟨s, reqs, EndReason.fuelOut⟩
  | fuel + 1, page, s, reqs =>
    if env.flagAt page then
      match env.pageAt page with
      | PageOutcome.status403 => ⟨s, reqs ++ [page], EndReason.pageStatus403⟩
      | PageOutcome.statusOther _ => ⟨s, reqs ++ [page], EndReason.pageStatusOther⟩
      | PageOutcome.raised => ⟨s, reqs ++ [page], EndReason.pageRaised⟩
      | PageOutcome.dict => ⟨s, reqs ++ [page], EndReason.pageDict⟩
      | PageOutcome.ok entries =>
        if entries.isEmpty then ⟨s, reqs ++ [page], EndReason.pageEmpty⟩
        else
          fetchLoop env prMap now staleDays fuel (page + 1)
            (processPage env prMap now staleDays entries s) (reqs ++ [page])
    else ⟨s, reqs, EndReason.flagCleared⟩

/-- `fetch_branches_continuously` (src/dashboard.py lines 253-382): the PR
index is fetched first; a 403, any other non-success status or a raised
request makes the function return before the first branches page is
requested (lines 269-282), leaving the store as it was; on success the
pagination loop runs with the PR map just built. -/
def fetch_branches_continuously (env : FetchEnv) (now : Int) (staleDays : Nat)
    (fuel : Nat) (init : AggState) : SessionResult :=
  match env.pr with
  | PrOutcome.ok prs => fetchLoop env (prMapOf prs) now staleDays fuel 1 init []
  | PrOutcome.status403 => ⟨init, [], EndReason.prFailed⟩
  | PrOutcome.statusOther _ => ⟨init, [], EndReason.prFailed⟩
  | PrOutcome.raised => ⟨init, [], EndReason.prFailed⟩

/-- One row of app1's `branch_details` (src/app1.py lines 71-77). -/
structure App1Record where
  name : String
  lastCommit : Int
  category : Cat
  authorName : String
  authorEmail : String
deriving DecidableEq

structure App1Agg where
  details : List App1Record
  groups : CatGroups
deriving DecidableEq

def app1Empty : App1Agg := ⟨[], emptyGroups⟩

/-- Row construction in app1's merge (src/app1.py lines 60-77). -/
def app1RecordMk (prMap : String → Option Cat) (now : Int) (staleDays : Nat)
    (e : BranchEntry) (cd : CommitData) (d : Int) : App1Record :=
  { name := e.name, lastCommit := d,
    category := classify prMap now d staleDays e.name,
    authorName := cd.commitAuthorName.getD "Unknown",
    authorEmail := cd.commitAuthorEmail.getD "Unknown" }

def app1Append (s : App1Agg) (r : App1Record) : App1Agg :=
  { details := s.details ++ [r],
    groups := addToGroup s.groups r.category (r.authorName, r.authorEmail, r.name) }

/-- app1's per-page merge (src/app1.py lines 59-77): there is no per-branch
try/except, so a failing commit lookup raises out of the loop; the records
merged before the failure remain and the Boolean reports the crash. -/
def app1ProcessPage (env : FetchEnv) (prMap : String → Option Cat) (now : Int)
    (staleDays : Nat) : List BranchEntry → App1Agg → App1Agg × Bool
  | [], s => (s, false)
  | e :: rest, s =>
    match env.commitAt e.commitUrl with
    | none => (s, true)
    | some cd =>
      match cd.date with
      | none => (s, true)
      | some d =>
        app1ProcessPage env prMap now staleDays rest
          (app1Append s (app1RecordMk prMap now staleDays e cd d))

inductive App1End where
  | flagCleared
  | pageBreak
  | fuelOut
  | crashedPr
  | crashedPage
  | crashedCommit
deriving DecidableEq

structure App1Result where
  state : App1Agg
  pagesRequested : List Nat
  reason : App1End
deriving DecidableEq

/-- app1's pagination loop (src/app1.py lines 46-80): any non-200 status, an
empty body or a non-list body breaks; a raised page request, or a raised
commit lookup inside the page, crashes the fetch thread. -/
def app1Loop (env : FetchEnv) (prMap : String → Option Cat) (now : Int)
    (staleDays : Nat) : Nat → Nat → App1Agg → List Nat → App1Result
  | 0, _, s, reqs => ⟨s, reqs, App1End.fuelOut⟩
  | fuel + 1, page, s, reqs =>
    if env.flagAt page then
      match env.pageAt page with
      | PageOutcome.raised => ⟨s, reqs ++ [page], App1End.crashedPage⟩
      | PageOutcome.status403 => ⟨s, reqs ++ [page], App1End.pageBreak⟩
      | PageOutcome.statusOther _ => ⟨s, reqs ++ [page], App1End.pageBreak⟩
      | PageOutcome.dict => ⟨s, reqs ++ [page], App1End.pageBreak⟩
      | PageOutcome.ok entries =>
        if entries.isEmpty then ⟨s, reqs ++ [page], App1End.pageBreak⟩
        else
          match app1ProcessPage env prMap now staleDays entries s with
          | (s2, true) => ⟨s2, reqs ++ [page], App1End.crashedCommit⟩
          | (s2, false) =>
            app1Loop env prMap now staleDays fuel (page + 1) s2 (reqs ++ [page])
    else ⟨s, reqs, App1End.flagCleared⟩

/-- app1's `fetch_branches_continuously` (src/app1.py lines 34-82): the PR
index request has no try/except, so a raised request crashes the thread
before any page is requested; any non-200 status leaves `pr_map` empty and
the pagination loop still runs. -/
def app1_fetch (env : FetchEnv) (now : Int) (staleDays : Nat) (fuel : Nat)
    (init : App1Agg) : App1Result :=
  match env.pr with
  | PrOutcome.ok prs => app1Loop env (prMapOf prs) now staleDays fuel 1 init []
  | PrOutcome.status403 => app1Loop env (prMapOf []) now staleDays fuel 1 init []
  | PrOutcome.statusOther _ => app1Loop env (prMapOf []) now staleDays fuel 1 init []
  | PrOutcome.raised => ⟨init, [], App1End.crashedPr⟩

/-- First list is a prefix of the second (character lists). -/
def isPrefixL : List Char → List Char → Bool
  | [], _ => true
  | _ :: _, [] => false
  | a :: as, b :: bs => a == b && isPrefixL as bs

/-- Python substring containment, `needle in hay`, on character lists. -/
def containsSub (hay needle : List Char) : Bool :=
  match hay with
  | [] => isPrefixL needle []
  | c :: t => isPrefixL needle (c :: t) || containsSub t needle

/-- Python single-character `str.split` on character lists. -/
def splitOnChar (sep : Char) : List Char → List (List Char)
  | [] => [[]]
  | c :: t =>
    if c == sep then [] :: splitOnChar sep t
    else
      match splitOnChar sep t with
      | [] => [[c]]
      | p :: ps => (c :: p) :: ps

def githubNoreplyDomain : String := "@users.noreply.github.com"

/-- `extract_github_username` (src/dashboard.py lines 56-69): only e-mails
containing the literal GitHub no-reply domain are transformed; for them the
handle is the part of the local part after the first plus sign, or the
whole local part when there is none; every other e-mail is returned
unchanged. -/
def extract_github_username (email : String) : String :=
  if containsSub email.data githubNoreplyDomain.data then
    let localPart := (splitOnChar '@' email.data).headD []
    if localPart.contains '+' then
      String.mk ((splitOnChar '+' localPart).getD 1 [])
    else String.mk localPart
  else email

/- Shared concrete inputs used by witnesses and counterexamples. -/

def cdOK : CommitData := ⟨some 0, none, none, some "ann", some "ann@x"⟩

def recFX : BranchRecord := ⟨"feature-x", 0, Cat.stale, "u", "u", "u@x"⟩

def recFY : BranchRecord := ⟨"feature-y", 0, Cat.no_pr, "u", "u", "u@x"⟩

def recGone : BranchRecord := ⟨"gone", 0, Cat.stale, "u", "u", "u@x"⟩

def recKeep : BranchRecord := ⟨"keep-me", 0, Cat.no_pr, "u", "u", "u@x"⟩

def det3 : List BranchRecord :=
  [⟨"b1", 0, Cat.stale, "u", "u", "u@x"⟩,
   ⟨"b2", 0, Cat.closed_pr, "u", "u", "u@x"⟩,
   ⟨"b3", 0, Cat.no_pr, "u", "u", "u@x"⟩]

/-- Delete-call stub for the claimed input: succeeds for b1 and b2, fails
with status 500 for b3. -/
def resp3 : String → RespOutcome :=
  fun n => if n == "b3" then RespOutcome.status 500 else RespOutcome.status 204

def entryA : BranchEntry := ⟨"feature-a", "u-a"⟩

def envC5 : FetchEnv :=
  { pr := PrOutcome.status403,
    pageAt := fun p => if p = 1 then PageOutcome.ok [entryA] else PageOutcome.ok [],
    commitAt := fun _ => some cdOK,
    eventsAt := fun _ => EventsOutcome.noMatch,
    flagAt := fun _ => true }

def pageEntries1 : List BranchEntry :=
  [⟨"a1", "u1"⟩, ⟨"a2", "u2"⟩, ⟨"a3", "u3"⟩, ⟨"a4", "u4"⟩, ⟨"a5", "u5"⟩]

def pageEntries2 : List BranchEntry :=
  [⟨"b1", "v1"⟩, ⟨"b2", "v2"⟩, ⟨"b3", "v3"⟩, ⟨"b4", "v4"⟩, ⟨"b5", "v5"⟩]

def pageEntries3 : List BranchEntry :=
  [⟨"c1", "w1"⟩, ⟨"c2", "w2"⟩, ⟨"c3", "w3"⟩, ⟨"c4", "w4"⟩, ⟨"c5", "w5"⟩]

def envC6 : FetchEnv :=
  { pr := PrOutcome.ok [],
    pageAt := fun p =>
      if p = 1 then PageOutcome.ok pageEntries1
      else if p = 2 then PageOutcome.ok pageEntries2
      else if p = 3 then PageOutcome.ok pageEntries3
      else PageOutcome.ok [],
    commitAt := fun _ => some cdOK,
    eventsAt := fun _ => EventsOutcome.noMatch,
    flagAt := fun _ => true }

def entriesC7 : List BranchEntry :=
  [⟨"d1", "v1"⟩, ⟨"d2", "v2"⟩, ⟨"d3", "bad"⟩, ⟨"d4", "v4"⟩, ⟨"d5", "v5"⟩]

/-- A page of five branches whose third commit lookup fails. -/
def envC7 : FetchEnv :=
  { pr := PrOutcome.ok [],
    pageAt := fun p => if p = 1 then PageOutcome.ok entriesC7 else PageOutcome.ok [],
    commitAt := fun u => if u == "bad" then none else some cdOK,
    eventsAt := fun _ => EventsOutcome.noMatch,
    flagAt := fun _ => true }

/- Helper lemmas. -/

theorem deleteStep_counts (resp : String → RespOutcome) (st : DelState)
    (n : String) :
    (deleteStep resp st n).deleted + (deleteStep resp st n).failed
      = st.deleted + st.failed + 1 := by
  cases h : resp n with
  | status c =>
    by_cases hc : c = 204 <;> simp [deleteStep, h, hc] <;> omega
  | raised => simp [deleteStep, h]; omega

theorem delete_branches_loop_counts (resp : String → RespOutcome)
    (names : List String) :
    ∀ st : DelState,
      (delete_branches_loop resp names st).deleted
          + (delete_branches_loop resp names st).failed
        = st.deleted + st.failed + names.length := by
  induction names with
  | nil => intro st; simp [delete_branches_loop]
  | cons n rest ih =>
    intro st
    have h1 := ih (deleteStep resp st n)
    have h2 := deleteStep_counts resp st n
    simp only [delete_branches_loop, List.foldl_cons] at h1 ⊢
    simp only [List.length_cons]
    omega

theorem processEntry_isSome (env : FetchEnv) (prMap : String → Option Cat)
    (now : Int) (staleDays : Nat) (e : BranchEntry) :
    (processEntry env prMap now staleDays e).isSome = commitResolved env e := by
  unfold processEntry commitResolved
  cases h : env.commitAt e.commitUrl with
  | none => simp
  | some cd => cases hd : cd.date <;> simp [hd]

theorem countP_isNone_zero (env : FetchEnv) (prMap : String → Option Cat)
    (now : Int) (staleDays : Nat) (l : List BranchEntry)
    (h : ∀ e ∈ l, commitResolved env e = true) :
    l.countP (fun e => (processEntry env prMap now staleDays e).isNone) = 0 := by
  rw [List.countP_eq_zero]
  intro a ha
  have hs := processEntry_isSome env prMap now staleDays a
  rw [h a ha] at hs
  cases hq : processEntry env prMap now staleDays a with
  | none => rw [hq] at hs; exact absurd hs (by simp)
  | some r => simp [hq]

theorem processPage_length (env : FetchEnv) (prMap : String → Option Cat)
    (now : Int) (staleDays : Nat) (entries : List BranchEntry) :
    ∀ s : AggState,
      (processPage env prMap now staleDays entries s).details.length
          + entries.countP (fun e => (processEntry env prMap now staleDays e).isNone)
        = s.details.length + entries.length := by
  induction entries with
  | nil => intro s; simp [processPage]
  | cons e rest ih =>
    intro s
    cases h : processEntry env prMap now staleDays e with
    | none =>
      have hh := ih s
      simp [processPage, h, List.countP_cons]
      omega
    | some r =>
      have hh := ih (appendRecord s r)
      simp [processPage, h, List.countP_cons, appendRecord] at hh ⊢
      omega

theorem fetchLoop_step (env : FetchEnv) (prMap : String → Option Cat)
    (now : Int) (staleDays : Nat) (fuel page : Nat) (s : AggState)
    (reqs : List Nat) (l : List BranchEntry)
    (hflag : env.flagAt page = true)
    (hpage : env.pageAt page = PageOutcome.ok l) (hne : l ≠ []) :
    fetchLoop env prMap now staleDays (fuel + 1) page s reqs
      = fetchLoop env prMap now staleDays fuel (page + 1)
          (processPage env prMap now staleDays l s) (reqs ++ [page]) := by
  have hempty : l.isEmpty = false := by
    cases l with
    | nil => exact absurd rfl hne
    | cons a t => rfl
  simp [fetchLoop, hflag, hpage, hempty]

theorem fetchLoop_empty (env : FetchEnv) (prMap : String → Option Cat)
    (now : Int) (staleDays : Nat) (fuel page : Nat) (s : AggState)
    (reqs : List Nat)
    (hflag : env.flagAt page = true)
    (hpage : env.pageAt page = PageOutcome.ok []) :
    fetchLoop env prMap now staleDays (fuel + 1) page s reqs
      = ⟨s, reqs ++ [page], EndReason.pageEmpty⟩ := by
  simp [fetchLoop, hflag, hpage]

theorem app1ProcessPage_ok (env : FetchEnv) (prMap : String → Option Cat)
    (now : Int) (staleDays : Nat) (entries : List BranchEntry) :
    ∀ s : App1Agg, (∀ e ∈ entries, commitResolved env e = true) →
      (app1ProcessPage env prMap now staleDays entries s).2 = false
      ∧ (app1ProcessPage env prMap now staleDays entries s).1.details.length
          = s.details.length + entries.length := by
  induction entries with
  | nil => intro s _; simp [app1ProcessPage]
  | cons e rest ih =>
    intro s h
    have he : commitResolved env e = true := h e (by simp)
    have hr : ∀ x ∈ rest, commitResolved env x = true :=
      fun x hx => h x (by simp [hx])
    cases hc : env.commitAt e.commitUrl with
    | none => simp [commitResolved, hc] at he
    | some cd =>
      simp [commitResolved, hc] at he
      cases hd : cd.date with
      | none => rw [hd] at he; exact absurd he (by simp)
      | some d =>
        have hh := ih (app1Append s (app1RecordMk prMap now staleDays e cd d)) hr
        simp [app1ProcessPage, hc, hd, app1Append] at hh ⊢
        refine ⟨hh.1, ?_⟩
        omega

theorem app1ProcessPage_crash (env : FetchEnv) (prMap : String → Option Cat)
    (now : Int) (staleDays : Nat) (entries : List BranchEntry) :
    ∀ s : App1Agg, (∃ e ∈ entries, commitResolved env e = false) →
      (app1ProcessPage env prMap now staleDays entries s).2 = true := by
  induction entries with
  | nil =>
    intro s h
    rcases h with ⟨e, he, _⟩
    exact absurd he (by simp)
  | cons e rest ih =>
    intro s h
    cases hc : env.commitAt e.commitUrl with
    | none => simp [app1ProcessPage, hc]
    | some cd =>
      cases hd : cd.date with
      | none => simp [app1ProcessPage, hc, hd]
      | some d =>
        rcases h with ⟨x, hx, hxf⟩
        rcases List.mem_cons.mp hx with rfl | hx2
        · simp [commitResolved, hc, hd] at hxf
        · simp only [app1ProcessPage, hc, hd]
          exact ih _ ⟨x, hx2, hxf⟩

theorem app1Loop_step (env : FetchEnv) (prMap : String → Option Cat)
    (now : Int) (staleDays : Nat) (fuel page : Nat) (s : App1Agg)
    (reqs : List Nat) (l : List BranchEntry)
    (hflag : env.flagAt page = true)
    (hpage : env.pageAt page = PageOutcome.ok l) (hne : l ≠ [])
    (hok : (app1ProcessPage env prMap now staleDays l s).2 = false) :
    app1Loop env prMap now staleDays (fuel + 1) page s reqs
      = app1Loop env prMap now staleDays fuel (page + 1)
          (app1ProcessPage env prMap now staleDays l s).1 (reqs ++ [page]) := by
  have hempty : l.isEmpty = false := by
    cases l with
    | nil => exact absurd rfl hne
    | cons a t => rfl
  rcases hq : app1ProcessPage env prMap now staleDays l s with ⟨s2, b⟩
  rw [hq] at hok
  simp at hok
  subst hok
  simp [app1Loop, hflag, hpage, hempty, hq]

theorem app1Loop_empty (env : FetchEnv) (prMap : String → Option Cat)
    (now : Int) (staleDays : Nat) (fuel page : Nat) (s : App1Agg)
    (reqs : List Nat)
    (hflag : env.flagAt page = true)
    (hpage : env.pageAt page = PageOutcome.ok []) :
    app1Loop env prMap now staleDays (fuel + 1) page s reqs
      = ⟨s, reqs ++ [page], App1End.pageBreak⟩ := by
  simp [app1Loop, hflag, hpage]

theorem app1Loop_crash (env : FetchEnv) (prMap : String → Option Cat)
    (now : Int) (staleDays : Nat) (fuel page : Nat) (s : App1Agg)
    (reqs : List Nat) (l : List BranchEntry)
    (hflag : env.flagAt page = true)
    (hpage : env.pageAt page = PageOutcome.ok l) (hne : l ≠ [])
    (hcrash : (app1ProcessPage env prMap now staleDays l s).2 = true) :
    app1Loop env prMap now staleDays (fuel + 1) page s reqs
      = ⟨(app1ProcessPage env prMap now staleDays l s).1,
         reqs ++ [page], App1End.crashedCommit⟩ := by
  have hempty : l.isEmpty = false := by
    cases l with
    | nil => exact absurd rfl hne
    | cons a t => rfl
  rcases hq : app1ProcessPage env prMap now staleDays l s with ⟨s2, b⟩
  rw [hq] at hcrash
  simp at hcrash
  subst hcrash
  simp [app1Loop, hflag, hpage, hempty, hq]

/- Claim theorems. -/

/-- C1: the classifier assigns exactly one category, with staleness decided
before the PR map is consulted — an over-threshold branch is stale whatever
the PR map holds; a branch under the threshold gets open_pr when the PR map
maps its name to an open pull request, closed_pr when it maps it to a pull
request in any other state, and no_pr when the map has no entry for it. -/
theorem classify_exactly_one_with_precedence
    (prs : List (String × String)) (now commitDate : Int) (staleDays : Nat)
    (name : String) :
    (daysBetween now commitDate > (staleDays : Int) →
      ∀ prs2 : List (String × String),
        classify (prMapOf prs2) now commitDate staleDays name = Cat.stale)
    ∧ (¬ daysBetween now commitDate > (staleDays : Int) →
        (prLookup prs name = none →
          classify (prMapOf prs) now commitDate staleDays name = Cat.no_pr)
        ∧ (prLookup prs name = some "open" →
            classify (prMapOf prs) now commitDate staleDays name = Cat.open_pr)
        ∧ (∀ st : String, prLookup prs name = some st → st ≠ "open" →
            classify (prMapOf prs) now commitDate staleDays name = Cat.closed_pr)) := by
  constructor
  · intro h prs2
    simp [classify, h]
  · intro h
    refine ⟨?_, ?_, ?_⟩
    · intro hl
      simp [classify, h, prMapOf, hl]
    · intro hl
      simp [classify, h, prMapOf, hl, stateToCat]
    · intro st hl hst
      simp [classify, h, prMapOf, hl, stateToCat, hst]

/-- Concrete instances of the classification precedence theorem: a branch
120 days past a 90-day threshold is stale despite an open PR; under the
threshold the PR map decides. -/
theorem classify_precedence_witness :
    classify (prMapOf [("feat", "open")]) (200 * 86400) 0 90 "feat" = Cat.stale
    ∧ classify (prMapOf [("feat", "open")]) (10 * 86400) 0 90 "feat" = Cat.open_pr
    ∧ classify (prMapOf [("feat", "closed")]) (10 * 86400) 0 90 "feat" = Cat.closed_pr
    ∧ classify (prMapOf []) (10 * 86400) 0 90 "lone" = Cat.no_pr := by
  refine ⟨?_, ?_, ?_, ?_⟩
  · exact (classify_exactly_one_with_precedence [] (200 * 86400) 0 90 "feat").1
      (by decide) [("feat", "open")]
  · exact ((classify_exactly_one_with_precedence [("feat", "open")]
      (10 * 86400) 0 90 "feat").2 (by decide)).2.1 (by decide)
  · exact ((classify_exactly_one_with_precedence [("feat", "closed")]
      (10 * 86400) 0 90 "feat").2 (by decide)).2.2 "closed" (by decide) (by decide)
  · exact ((classify_exactly_one_with_precedence [] (10 * 86400) 0 90 "lone").2
      (by decide)).1 (by decide)

/-- C9 counterexample: with threshold 90, a last commit 90 days plus one
hour in the past exceeds the threshold in elapsed time, yet the classifier
does not mark the branch stale, because line 366 compares the
whole-day-truncated difference. -/
theorem stale_not_triggered_by_partial_day :
    ((90 * 86400 + 3600 : Int) - 0 > 90 * 86400)
    ∧ classify (prMapOf []) (90 * 86400 + 3600) 0 90 "b" ≠ Cat.stale := by
  decide

/-- C9 amended: a branch is classified stale exactly when the whole-day
count of the elapsed time — Python timedelta.days, floor division of the
second difference by 86400 — exceeds the threshold; elapsed time past the
threshold by less than a further whole day does not make it stale. -/
theorem stale_iff_truncated_days_exceed_threshold
    (prs : List (String × String)) (now commitDate : Int) (staleDays : Nat)
    (name : String) :
    classify (prMapOf prs) now commitDate staleDays name = Cat.stale
      ↔ daysBetween now commitDate > (staleDays : Int) := by
  unfold classify
  by_cases h : daysBetween now commitDate > (staleDays : Int)
  · simp [h]
  · simp only [h, if_false, iff_false]
    cases hl : prLookup prs name with
    | none => simp [prMapOf, hl]
    | some st =>
      by_cases hst : st = "open" <;> simp [prMapOf, hl, stateToCat, hst]

/-- C2 counterexample: the queue consumer itself applies no exclusion — the
deletion executor processes a protected name handed to it instead of
filtering it out.  As written it counts the attempt (it fails, line 90),
and with the commented-out HTTP call restored it would delete the protected
branch and drop it from the store. -/
theorem queue_consumer_no_exclusion_check :
    (delete_branches (fun _ => RespOutcome.status 204) ["main"] emptyGroups
        [⟨"main", 0, Cat.stale, "u", "u", "u@x"⟩] []).failed = 1
    ∧ (delete_branches_intended (fun _ => RespOutcome.status 204) ["main"]
        emptyGroups [⟨"main", 0, Cat.stale, "u", "u", "u@x"⟩] []).deleted = 1
    ∧ (delete_branches_intended (fun _ => RespOutcome.status 204) ["main"]
        emptyGroups [⟨"main", 0, Cat.stale, "u", "u", "u@x"⟩] []).details = [] := by
  decide

/-- C2 amended: protected names never appear in any deletion candidate list
and never enter the deletion queue, and the queue never admits an open-PR
branch; the exclusions are enforced at two independent checkpoints — when
the candidate lists are built, and again when branches are admitted to the
queue in the delete handler, which re-checks arbitrary input lists on its
own — while the queue consumer itself performs no exclusion check. -/
theorem protected_and_open_pr_exclusion :
    (∀ (c : Cat) (details : List BranchRecord) (deleted : List String)
        (b : BranchRecord), b ∈ deletableOf c details deleted →
          isProtected b.name = false)
    ∧ (∀ (sel : Selection) (l1 l2 l3 l4 : List BranchRecord)
        (b : BranchRecord), b ∈ queuedRecords sel l1 l2 l3 l4 →
          isProtected b.name = false ∧ b.category ≠ Cat.open_pr) := by
  constructor
  · intro c details deleted b hb
    unfold deletableOf at hb
    simp only [List.mem_filter] at hb
    simpa using hb.2
  · intro sel l1 l2 l3 l4 b hb
    unfold queuedRecords at hb
    simp only [List.mem_filter, Bool.and_eq_true] at hb
    refine ⟨by simpa using hb.2.1, ?_⟩
    simpa using hb.2.2

/-- Concrete instances of the exclusion theorem, at a stale candidate and a
queued no-PR branch. -/
theorem protected_exclusion_witness :
    isProtected recFX.name = false
    ∧ (isProtected recFY.name = false ∧ recFY.category ≠ Cat.open_pr) := by
  constructor
  · exact protected_and_open_pr_exclusion.1 Cat.stale [recFX] [] recFX (by decide)
  · exact protected_and_open_pr_exclusion.2 ⟨false, false, false, true⟩
      [] [] [] [recFY] recFY (by decide)

/-- C3: evaluation of the deletion executor at the claim's input — three
queued branches whose delete call would succeed for two and fail for one.
As written (line 90 replaces the HTTP delete call with an empty string,
so every attempt raises) it issues no request, returns (0, 3) and leaves
the store untouched; with the commented-out call restored it returns (2, 1)
and the store shrinks by exactly 2. -/
theorem delete_branches_noop_evaluation :
    (delete_branches resp3 ["b1", "b2", "b3"] emptyGroups det3 []).deleted = 0
    ∧ (delete_branches resp3 ["b1", "b2", "b3"] emptyGroups det3 []).failed = 3
    ∧ (delete_branches resp3 ["b1", "b2", "b3"] emptyGroups det3 []).details = det3
    ∧ (delete_branches_intended resp3 ["b1", "b2", "b3"] emptyGroups det3 []).deleted = 2
    ∧ (delete_branches_intended resp3 ["b1", "b2", "b3"] emptyGroups det3 []).failed = 1
    ∧ (delete_branches_intended resp3 ["b1", "b2", "b3"] emptyGroups det3
        []).details.length = det3.length - 2
    ∧ (delete_branches_intended resp3 ["b1", "b2", "b3"] emptyGroups det3
        []).deletedBranches = ["b1", "b2"] := by
  decide

/-- C4: a name recorded in the deleted-branches set is absent from every
snapshot that the active-branches filter produces, whatever the raw record
list now holds — re-appending a record with that name cannot bring it
back.  Both call sites (src/dashboard.py lines 583 and 877) apply this
same filter. -/
theorem deleted_marker_excludes_from_snapshots
    (details : List BranchRecord) (deleted : List String) (n : String)
    (hn : deleted.contains n = true) :
    ∀ b ∈ active_branches details deleted, b.name ≠ n := by
  intro b hb heq
  unfold active_branches at hb
  simp only [List.mem_filter, Bool.not_eq_true'] at hb
  rw [heq] at hb
  rw [hb.2] at hn
  exact absurd hn (by simp)

/-- Concrete instance: with "gone" marked deleted, the surviving record of a
raw list that re-appends "gone" twice still has a different name. -/
theorem deleted_marker_witness : recKeep.name ≠ "gone" :=
  deleted_marker_excludes_from_snapshots [recGone, recKeep, recGone] ["gone"]
    "gone" (by decide) recKeep (by decide)

/-- C10: the deletion executor counts every queued name in exactly one of
its two result buckets — deleted plus failed equals the batch length —
both as written and with the commented-out HTTP call restored, so a
failure on one branch never stops the processing of the rest of the
batch. -/
theorem delete_branches_counts_partition
    (resp : String → RespOutcome) (names : List String) (groups : CatGroups)
    (details : List BranchRecord) (deletedBranches : List String) :
    (delete_branches resp names groups details deletedBranches).deleted
        + (delete_branches resp names groups details deletedBranches).failed
      = names.length
    ∧ (delete_branches_intended resp names groups details deletedBranches).deleted
        + (delete_branches_intended resp names groups details deletedBranches).failed
      = names.length := by
  constructor
  · have h := delete_branches_loop_counts (fun _ => RespOutcome.raised) names
      ⟨0, 0, groups, details, deletedBranches⟩
    simpa [delete_branches] using h
  · have h := delete_branches_loop_counts resp names
      ⟨0, 0, groups, details, deletedBranches⟩
    simpa [delete_branches_intended] using h

/-- C5 counterexample: with the PR index request returning 403 and a
non-empty first branches page available, the dashboard session issues zero
branch page requests and leaves the store empty; the identical environment
whose PR fetch succeeds requests pages 1 and 2 — so the PR failure, not
the environment, aborted the page loop. -/
theorem pr_failure_aborts_page_loop :
    (fetch_branches_continuously envC5 864000 90 10 emptyAgg).pagesRequested = []
    ∧ (fetch_branches_continuously envC5 864000 90 10 emptyAgg).state = emptyAgg
    ∧ (fetch_branches_continuously { envC5 with pr := PrOutcome.ok [] }
        864000 90 10 emptyAgg).pagesRequested = [1, 2]
    ∧ (fetch_branches_continuously { envC5 with pr := PrOutcome.ok [] }
        864000 90 10 emptyAgg).state.details.length = 1 := by
  decide

/-- C5 amended: in dashboard.py a pull-request index fetch failure — a 403,
any other non-success status, or a raised request — makes the background
session return before any branches page is requested, leaving the store as
it was; in app1.py only a non-success status degrades to an empty PRMap
with the pagination loop still running, while a raised PR request crashes
the thread before any page is requested. -/
theorem pr_failure_dashboard_aborts_app1_degrades
    (env : FetchEnv) (now : Int) (staleDays : Nat) (fuel : Nat)
    (init : AggState) (init1 : App1Agg) :
    ((env.pr = PrOutcome.status403 ∨ (∃ c, env.pr = PrOutcome.statusOther c)
        ∨ env.pr = PrOutcome.raised) →
      fetch_branches_continuously env now staleDays fuel init
        = ⟨init, [], EndReason.prFailed⟩)
    ∧ ((env.pr = PrOutcome.status403 ∨ (∃ c, env.pr = PrOutcome.statusOther c)) →
      app1_fetch env now staleDays fuel init1
        = app1Loop env (prMapOf []) now staleDays fuel 1 init1 [])
    ∧ (env.pr = PrOutcome.raised →
      app1_fetch env now staleDays fuel init1 = ⟨init1, [], App1End.crashedPr⟩) := by
  refine ⟨?_, ?_, ?_⟩
  · rintro (h | ⟨c, h⟩ | h) <;> simp [fetch_branches_continuously, h]
  · rintro (h | ⟨c, h⟩) <;> simp [app1_fetch, h]
  · intro h
    simp [app1_fetch, h]

/-- Concrete instance: the 403 environment of the counterexample aborts the
dashboard session with the store untouched, and makes app1 proceed with the
empty PR map. -/
theorem pr_failure_witness :
    fetch_branches_continuously envC5 864000 90 10 emptyAgg
      = ⟨emptyAgg, [], EndReason.prFailed⟩
    ∧ app1_fetch envC5 864000 90 10 app1Empty
      = app1Loop envC5 (prMapOf []) 864000 90 10 1 app1Empty [] := by
  have h := pr_failure_dashboard_aborts_app1_degrades envC5 864000 90 10
    emptyAgg app1Empty
  exact ⟨h.1 (Or.inl rfl), h.2.1 (Or.inl rfl)⟩

/-- C6: with the cancellation flag held set and a stub returning branch
pages of sizes 5, 5, 5, 0 whose commit lookups all succeed, the fetcher
requests exactly pages 1 to 4, ends pagination cleanly on the empty page,
and the aggregate store gains exactly 15 merged records; app1's loop
behaves the same on this stub. -/
theorem pagination_four_requests_fifteen_records
    (env : FetchEnv) (prs : List (String × String)) (now : Int)
    (staleDays : Nat) (fuel : Nat) (init : AggState) (init1 : App1Agg)
    (l1 l2 l3 : List BranchEntry)
    (hpr : env.pr = PrOutcome.ok prs)
    (hf : ∀ p, env.flagAt p = true)
    (h1 : env.pageAt 1 = PageOutcome.ok l1)
    (h2 : env.pageAt 2 = PageOutcome.ok l2)
    (h3 : env.pageAt 3 = PageOutcome.ok l3)
    (h4 : env.pageAt 4 = PageOutcome.ok [])
    (hl1 : l1.length = 5) (hl2 : l2.length = 5) (hl3 : l3.length = 5)
    (hc : ∀ e, (e ∈ l1 ∨ e ∈ l2 ∨ e ∈ l3) → commitResolved env e = true) :
    ((fetch_branches_continuously env now staleDays (fuel + 4) init).pagesRequested
        = [1, 2, 3, 4]
      ∧ (fetch_branches_continuously env now staleDays (fuel + 4) init).state.details.length
        = init.details.length + 15
      ∧ (fetch_branches_continuously env now staleDays (fuel + 4) init).reason
        = EndReason.pageEmpty)
    ∧ ((app1_fetch env now staleDays (fuel + 4) init1).pagesRequested = [1, 2, 3, 4]
      ∧ (app1_fetch env now staleDays (fuel + 4) init1).state.details.length
        = init1.details.length + 15
      ∧ (app1_fetch env now staleDays (fuel + 4) init1).reason = App1End.pageBreak) := by
  have hn1 : l1 ≠ [] := by intro hh; rw [hh] at hl1; simp at hl1
  have hn2 : l2 ≠ [] := by intro hh; rw [hh] at hl2; simp at hl2
  have hn3 : l3 ≠ [] := by intro hh; rw [hh] at hl3; simp at hl3
  have hc1 : ∀ e ∈ l1, commitResolved env e = true := fun e he => hc e (Or.inl he)
  have hc2 : ∀ e ∈ l2, commitResolved env e = true :=
    fun e he => hc e (Or.inr (Or.inl he))
  have hc3 : ∀ e ∈ l3, commitResolved env e = true :=
    fun e he => hc e (Or.inr (Or.inr he))
  constructor
  · have hcalc : fetch_branches_continuously env now staleDays (fuel + 4) init
        = ⟨processPage env (prMapOf prs) now staleDays l3
            (processPage env (prMapOf prs) now staleDays l2
              (processPage env (prMapOf prs) now staleDays l1 init)),
           [1, 2, 3, 4], EndReason.pageEmpty⟩ := by
      calc fetch_branches_continuously env now staleDays (fuel + 4) init
          = fetchLoop env (prMapOf prs) now staleDays (fuel + 4) 1 init [] := by
            simp [fetch_branches_continuously, hpr]
        _ = fetchLoop env (prMapOf prs) now staleDays (fuel + 3) 2
              (processPage env (prMapOf prs) now staleDays l1 init) [1] :=
            fetchLoop_step env (prMapOf prs) now staleDays (fuel + 3) 1 init []
              l1 (hf 1) h1 hn1
        _ = fetchLoop env (prMapOf prs) now staleDays (fuel + 2) 3
              (processPage env (prMapOf prs) now staleDays l2
                (processPage env (prMapOf prs) now staleDays l1 init)) [1, 2] :=
            fetchLoop_step env (prMapOf prs) now staleDays (fuel + 2) 2 _ [1]
              l2 (hf 2) h2 hn2
        _ = fetchLoop env (prMapOf prs) now staleDays (fuel + 1) 4
              (processPage env (prMapOf prs) now staleDays l3
                (processPage env (prMapOf prs) now staleDays l2
                  (processPage env (prMapOf prs) now staleDays l1 init)))
              [1, 2, 3] :=
            fetchLoop_step env (prMapOf prs) now staleDays (fuel + 1) 3 _ [1, 2]
              l3 (hf 3) h3 hn3
        _ = ⟨processPage env (prMapOf prs) now staleDays l3
              (processPage env (prMapOf prs) now staleDays l2
                (processPage env (prMapOf prs) now staleDays l1 init)),
             [1, 2, 3, 4], EndReason.pageEmpty⟩ :=
            fetchLoop_empty env (prMapOf prs) now staleDays fuel 4 _ [1, 2, 3]
              (hf 4) h4
    have e1 : (processPage env (prMapOf prs) now staleDays l1 init).details.length
        = init.details.length + 5 := by
      have hL := processPage_length env (prMapOf prs) now staleDays l1 init
      rw [countP_isNone_zero env (prMapOf prs) now staleDays l1 hc1, hl1] at hL
      omega
    have e2 : (processPage env (prMapOf prs) now staleDays l2
          (processPage env (prMapOf prs) now staleDays l1 init)).details.length
        = init.details.length + 10 := by
      have hL := processPage_length env (prMapOf prs) now staleDays l2
        (processPage env (prMapOf prs) now staleDays l1 init)
      rw [countP_isNone_zero env (prMapOf prs) now staleDays l2 hc2, hl2, e1] at hL
      omega
    have e3 : (processPage env (prMapOf prs) now staleDays l3
          (processPage env (prMapOf prs) now staleDays l2
            (processPage env (prMapOf prs) now staleDays l1 init))).details.length
        = init.details.length + 15 := by
      have hL := processPage_length env (prMapOf prs) now staleDays l3
        (processPage env (prMapOf prs) now staleDays l2
          (processPage env (prMapOf prs) now staleDays l1 init))
      rw [countP_isNone_zero env (prMapOf prs) now staleDays l3 hc3, hl3, e2] at hL
      omega
    rw [hcalc]
    exact ⟨rfl, e3, rfl⟩
  · have a1 := app1ProcessPage_ok env (prMapOf prs) now staleDays l1 init1 hc1
    have a2 := app1ProcessPage_ok env (prMapOf prs) now staleDays l2
      (app1ProcessPage env (prMapOf prs) now staleDays l1 init1).1 hc2
    have a3 := app1ProcessPage_ok env (prMapOf prs) now staleDays l3
      (app1ProcessPage env (prMapOf prs) now staleDays l2
        (app1ProcessPage env (prMapOf prs) now staleDays l1 init1).1).1 hc3
    have hcalc : app1_fetch env now staleDays (fuel + 4) init1
        = ⟨(app1ProcessPage env (prMapOf prs) now staleDays l3
             (app1ProcessPage env (prMapOf prs) now staleDays l2
               (app1ProcessPage env (prMapOf prs) now staleDays l1 init1).1).1).1,
           [1, 2, 3, 4], App1End.pageBreak⟩ := by
      calc app1_fetch env now staleDays (fuel + 4) init1
          = app1Loop env (prMapOf prs) now staleDays (fuel + 4) 1 init1 [] := by
            simp [app1_fetch, hpr]
        _ = app1Loop env (prMapOf prs) now staleDays (fuel + 3) 2
              (app1ProcessPage env (prMapOf prs) now staleDays l1 init1).1 [1] :=
            app1Loop_step env (prMapOf prs) now staleDays (fuel + 3) 1 init1 []
              l1 (hf 1) h1 hn1 a1.1
        _ = app1Loop env (prMapOf prs) now staleDays (fuel + 2) 3
              (app1ProcessPage env (prMapOf prs) now staleDays l2
                (app1ProcessPage env (prMapOf prs) now staleDays l1 init1).1).1
              [1, 2] :=
            app1Loop_step env (prMapOf prs) now staleDays (fuel + 2) 2 _ [1]
              l2 (hf 2) h2 hn2 a2.1
        _ = app1Loop env (prMapOf prs) now staleDays (fuel + 1) 4
              (app1ProcessPage env (prMapOf prs) now staleDays l3
                (app1ProcessPage env (prMapOf prs) now staleDays l2
                  (app1ProcessPage env (prMapOf prs) now staleDays l1 init1).1).1).1
              [1, 2, 3] :=
            app1Loop_step env (prMapOf prs) now staleDays (fuel + 1) 3 _ [1, 2]
              l3 (hf 3) h3 hn3 a3.1
        _ = ⟨(app1ProcessPage env (prMapOf prs) now staleDays l3
               (app1ProcessPage env (prMapOf prs) now staleDays l2
                 (app1ProcessPage env (prMapOf prs) now staleDays l1 init1).1).1).1,
             [1, 2, 3, 4], App1End.pageBreak⟩ :=
            app1Loop_empty env (prMapOf prs) now staleDays fuel 4 _ [1, 2, 3]
              (hf 4) h4
    rw [hcalc]
    refine ⟨rfl, ?_, rfl⟩
    rw [a3.2, a2.2, a1.2, hl1, hl2, hl3]

/-- Concrete instance of the pagination theorem at a literal four-page
stub. -/
theorem pagination_witness :
    (fetch_branches_continuously envC6 864000 90 4 emptyAgg).pagesRequested
      = [1, 2, 3, 4]
    ∧ (fetch_branches_continuously envC6 864000 90 4 emptyAgg).state.details.length
      = emptyAgg.details.length + 15
    ∧ (app1_fetch envC6 864000 90 4 app1Empty).state.details.length
      = app1Empty.details.length + 15 := by
  have h := pagination_four_requests_fifteen_records envC6 [] 864000 90 0
    emptyAgg app1Empty pageEntries1 pageEntries2 pageEntries3 rfl
    (fun p => rfl) rfl rfl rfl rfl rfl rfl rfl (fun e _ => rfl)
  exact ⟨h.1.1, h.1.2.1, h.2.2.1⟩

/-- C7 counterexample: in app1.py a page of five branches whose third commit
lookup fails does not yield four merged records — the missing per-branch
exception handler lets the failure crash the page and the fetch thread,
keeping only the two records merged before it. -/
theorem app1_commit_failure_aborts_page :
    (app1_fetch envC7 864000 90 10 app1Empty).reason = App1End.crashedCommit
    ∧ (app1_fetch envC7 864000 90 10 app1Empty).state.details.length = 2
    ∧ (app1_fetch envC7 864000 90 10 app1Empty).pagesRequested = [1] := by
  decide

/-- C7 amended: in dashboard.py a failing commit lookup skips only that
branch — a page of five entries with exactly one failure merges four
records and the pagination loop goes on to the next page, ending cleanly —
while in app1.py, which has no per-branch exception handler, a failing
commit lookup crashes the page and the fetch thread after the first page
request. -/
theorem commit_failure_skips_branch_dashboard_only
    (env : FetchEnv) (prs : List (String × String)) (now : Int)
    (staleDays : Nat) (fuel : Nat) (init : AggState) (init1 : App1Agg)
    (entries : List BranchEntry)
    (hpr : env.pr = PrOutcome.ok prs)
    (hf : ∀ p, env.flagAt p = true)
    (h1 : env.pageAt 1 = PageOutcome.ok entries)
    (h2 : env.pageAt 2 = PageOutcome.ok [])
    (hlen : entries.length = 5)
    (hone : entries.countP
        (fun e => (processEntry env (prMapOf prs) now staleDays e).isNone) = 1) :
    ((fetch_branches_continuously env now staleDays (fuel + 2) init).state.details.length
        = init.details.length + 4
      ∧ (fetch_branches_continuously env now staleDays (fuel + 2) init).pagesRequested
        = [1, 2]
      ∧ (fetch_branches_continuously env now staleDays (fuel + 2) init).reason
        = EndReason.pageEmpty)
    ∧ ((app1_fetch env now staleDays (fuel + 2) init1).reason = App1End.crashedCommit
      ∧ (app1_fetch env now staleDays (fuel + 2) init1).pagesRequested = [1]) := by
  have hne : entries ≠ [] := by intro hh; rw [hh] at hlen; simp at hlen
  constructor
  · have hcalc : fetch_branches_continuously env now staleDays (fuel + 2) init
        = ⟨processPage env (prMapOf prs) now staleDays entries init,
           [1, 2], EndReason.pageEmpty⟩ := by
      calc fetch_branches_continuously env now staleDays (fuel + 2) init
          = fetchLoop env (prMapOf prs) now staleDays (fuel + 2) 1 init [] := by
            simp [fetch_branches_continuously, hpr]
        _ = fetchLoop env (prMapOf prs) now staleDays (fuel + 1) 2
              (processPage env (prMapOf prs) now staleDays entries init) [1] :=
            fetchLoop_step env (prMapOf prs) now staleDays (fuel + 1) 1 init []
              entries (hf 1) h1 hne
        _ = ⟨processPage env (prMapOf prs) now staleDays entries init,
             [1, 2], EndReason.pageEmpty⟩ :=
            fetchLoop_empty env (prMapOf prs) now staleDays fuel 2 _ [1]
              (hf 2) h2
    have hL := processPage_length env (prMapOf prs) now staleDays entries init
    rw [hone, hlen] at hL
    rw [hcalc]
    refine ⟨?_, rfl, rfl⟩
    show (processPage env (prMapOf prs) now staleDays entries init).details.length
        = init.details.length + 4
    omega
  · have hpos : 0 < entries.countP
        (fun e => (processEntry env (prMapOf prs) now staleDays e).isNone) := by
      omega
    rcases List.countP_pos_iff.mp hpos with ⟨x, hx, hxp⟩
    have hcr : commitResolved env x = false := by
      have hs := processEntry_isSome env (prMapOf prs) now staleDays x
      rw [← hs]
      cases hq : processEntry env (prMapOf prs) now staleDays x with
      | none => rfl
      | some r => rw [hq] at hxp; exact absurd hxp (by simp)
    have hcrash := app1ProcessPage_crash env (prMapOf prs) now staleDays entries
      init1 ⟨x, hx, hcr⟩
    have hcalc : app1_fetch env now staleDays (fuel + 2) init1
        = ⟨(app1ProcessPage env (prMapOf prs) now staleDays entries init1).1,
           [1], App1End.crashedCommit⟩ := by
      calc app1_fetch env now staleDays (fuel + 2) init1
          = app1Loop env (prMapOf prs) now staleDays (fuel + 2) 1 init1 [] := by
            simp [app1_fetch, hpr]
        _ = ⟨(app1ProcessPage env (prMapOf prs) now staleDays entries init1).1,
             [1], App1End.crashedCommit⟩ :=
            app1Loop_crash env (prMapOf prs) now staleDays (fuel + 1) 1 init1 []
              entries (hf 1) h1 hne hcrash
    rw [hcalc]
    exact ⟨rfl, rfl⟩

/-- Concrete instance of the partial-failure theorem at the five-entry page
whose third commit lookup fails. -/
theorem commit_failure_witness :
    (fetch_branches_continuously envC7 864000 90 2 emptyAgg).state.details.length
      = emptyAgg.details.length + 4
    ∧ (fetch_branches_continuously envC7 864000 90 2 emptyAgg).pagesRequested
      = [1, 2]
    ∧ (app1_fetch envC7 864000 90 2 app1Empty).reason = App1End.crashedCommit := by
  have h := commit_failure_skips_branch_dashboard_only envC7 [] 864000 90 0
    emptyAgg app1Empty entriesC7 rfl (fun p => rfl) rfl rfl rfl (by decide)
  exact ⟨h.1.1, h.1.2.1, h.2.1⟩

/-- C8 counterexample: the extraction only recognises the literal GitHub
no-reply domain, so an anonymized address of another platform in the
claimed id+username form is returned unchanged rather than reduced to the
embedded username. -/
theorem noreply_other_domain_unchanged :
    extract_github_username "110465400+alice@users.noreply.example.com"
      = "110465400+alice@users.noreply.example.com"
    ∧ extract_github_username "110465400+alice@users.noreply.example.com"
      ≠ "alice" := by
  decide

/-- C8 amended: an e-mail containing the literal domain
users.noreply.github.com is reduced to the part of its local part after the
first plus sign (the GitHub handle); every e-mail not containing that
domain — including no-reply addresses of other platforms — is returned
unchanged. -/
theorem noreply_extraction_github_domain_only :
    (∀ email : String,
      containsSub email.data githubNoreplyDomain.data = false →
        extract_github_username email = email)
    ∧ extract_github_username "110465400+alice@users.noreply.github.com"
      = "alice"
    ∧ extract_github_username "bob@example.com" = "bob@example.com" := by
  refine ⟨?_, by decide, by decide⟩
  intro email h
  simp [extract_github_username, h]

/-- Concrete instance of the unchanged-e-mail half of the extraction
theorem. -/
theorem noreply_extraction_witness :
    extract_github_username "carol@example.org" = "carol@example.org" :=
  noreply_extraction_github_domain_only.1 "carol@example.org" (by decide)
